import Mathlib

/-!
Verification of the alignment-scoring and retrieval-fusion engine of the
information-retrieval assignment repository.  Python numerics are modelled
exactly over the rationals; the builtin round with three digits is modelled
by round-half-to-even, as Python specifies it.
-/

/-- Round-half-to-even on the rationals, producing an integer.
Models the rounding mode of the Python builtin round. -/
def roundHalfEven (q : ℚ) : ℤ :=
  let n := ⌊q⌋
  let r := q - n
  if r < 1/2 then n
  else if 1/2 < r then n + 1
  else if n % 2 = 0 then n else n + 1

/-- Python round(q, d): scale by 10 power d, round half to even, scale back. -/
def pyRound (q : ℚ) (d : ℕ) : ℚ :=
  (roundHalfEven (q * (10 : ℚ) ^ d) : ℚ) / (10 : ℚ) ^ d

/-- round(q, 3), used throughout the repository for published scores. -/
def round3 (q : ℚ) : ℚ := pyRound q 3

/-- min(1.0, max(0.0, q)) as in the orchestrator. -/
def clamp01 (q : ℚ) : ℚ := min 1 (max 0 q)

/-! String helpers mirroring the Python string operations used by the code.
They operate on the character list underlying a String so that every
operation is structurally recursive and kernel-evaluable. -/

/-- Auxiliary splitter: cut a character list at every occurrence of c. -/
def splitCharAux (c : Char) : List Char → List Char → List (List Char)
  | [], acc => [acc.reverse]
  | x :: xs, acc =>
      if x = c then acc.reverse :: splitCharAux c xs []
      else splitCharAux c xs (x :: acc)

/-- Python s.split(c) for a single-character separator. -/
def pySplitChar (c : Char) (s : String) : List String :=
  (splitCharAux c s.data []).map String.mk

/-- Python substring containment: needle in haystack. -/
def strContains (haystack needle : String) : Bool :=
  let rec go : List Char → Bool
    | [] => needle.data.isPrefixOf []
    | x :: xs => needle.data.isPrefixOf (x :: xs) || go xs
  go haystack.data

/-- Python str.strip(): drop whitespace from both ends. -/
def pyStrip (s : String) : String :=
  String.mk (((s.data.dropWhile Char.isWhitespace).reverse.dropWhile Char.isWhitespace).reverse)

/-- Python str.lstrip(chars): drop leading characters belonging to the set. -/
def pyLStrip (chars : List Char) (s : String) : String :=
  String.mk (s.data.dropWhile (fun c => chars.contains c))

/-- Python s[:n] on strings (character based, as in Python). -/
def strTake (s : String) (n : ℕ) : String := String.mk (s.data.take n)

/-- Python s.replace(old, new-empty-string) for a one-character pattern:
removes every occurrence of the character. -/
def strRemoveChar (c : Char) (s : String) : String :=
  String.mk (s.data.filter (fun x => x ≠ c))

/-- Python int(s) on a string: optional sign, then decimal digits; surrounding
whitespace stripped.  Returns none where int() raises ValueError. -/
def pyIntOfStr (s : String) : Option ℤ :=
  let t := (pyStrip s).data
  match t with
  | '-' :: ds =>
      if ds ≠ [] ∧ ds.all Char.isDigit then
        some (-(ds.foldl (fun n c => 10 * n + (c.toNat - '0'.toNat)) 0 : ℤ))
      else none
  | ds =>
      if ds ≠ [] ∧ ds.all Char.isDigit then
        some (ds.foldl (fun n c => 10 * n + (c.toNat - '0'.toNat)) 0 : ℤ)
      else none

/-! Configuration constants from src/config.py. -/

/-- Keys of STRATEGIC_OBJECTIVES in src/config.py: the objectives the
analysis pipeline enumerates. -/
def strategicObjectiveIds : List String := ["SO1", "SO2", "SO3", "SO4", "SO5"]

/-- OBJECTIVE_KPIS from src/config.py. -/
def OBJECTIVE_KPIS : List (String × List String) :=
  [("SO1", ["D1", "D2", "D3", "D4", "D5", "D6"]),
   ("SO2", ["R1", "R2", "R3", "R4", "R5", "R6"]),
   ("SO3", ["S1", "S2", "S3", "S4", "S5", "S6"]),
   ("SO4", ["I1", "I2", "I3", "I4", "I5", "I6"]),
   ("SO5", ["O1", "O2", "O3", "O4", "O5", "O6"])]

/-- OBJECTIVE_KPIS.get(obj, []) as used by the builder. -/
def objectiveKpisOf (obj : String) : List String :=
  ((OBJECTIVE_KPIS.find? (fun p => p.1 = obj)).map Prod.snd).getD []

/-- RETRIEVAL_TOP_K from src/config.py: per-variant search breadth. -/
def RETRIEVAL_TOP_K : ℕ := 10

/-- RERANK_TOP_K from src/config.py: results kept after the boost. -/
def RERANK_TOP_K : ℕ := 5

/-! RDF graph model.  The builder populates an rdflib Graph, which is a set
of subject/predicate/object triples; predicates of the ISPS namespace are
identified by their local name.  A graph is a triple list; set-valued
queries dedup their results, mirroring set semantics of rdflib. -/

/-- An RDF term: a URI reference, a string literal, or an integer literal. -/
inductive Term where
  | uri (s : String)
  | litStr (s : String)
  | litInt (n : ℤ)
deriving DecidableEq, Repr

/-- One RDF triple. -/
structure Triple where
  subj : Term
  pred : String
  obj : Term
deriving DecidableEq, Repr

/-- A knowledge graph: a set of triples, modelled as a list. -/
abbrev Graph := List Triple

/-- g.objects(s, p): the distinct objects of triples with subject s and
predicate p. -/
def objectsOf (g : Graph) (s : Term) (p : String) : List Term :=
  ((g.filter (fun t => t.subj = s ∧ t.pred = p)).map Triple.obj).dedup

/-- g.subjects(p, o): the distinct subjects of triples with predicate p and
object o. -/
def subjectsOf (g : Graph) (p : String) (o : Term) : List Term :=
  ((g.filter (fun t => t.pred = p ∧ t.obj = o)).map Triple.subj).dedup

/-- Python str(term): the URI text or the literal lexical form. -/
def strOf : Term → String
  | Term.uri s => s
  | Term.litStr s => s
  | Term.litInt n => toString n

/-- Python int(term) guarded by try/except in the scorer: integer literals
convert directly, other terms go through string parsing. -/
def tryInt : Term → Option ℤ
  | Term.litInt n => some n
  | Term.litStr s => pyIntOfStr s
  | Term.uri s => pyIntOfStr s

/-! Embedding of compute_ontology_alignment (src/src/ontology/alignment.py,
lines 10-84), per objective. -/

/-- The actions supporting an objective: g.subjects(supportsObjective, obj). -/
def supportingActions (g : Graph) (objId : String) : List Term :=
  subjectsOf g "supportsObjective" (Term.uri objId)

/-- The KPIs of an objective: g.objects(obj, hasKPI). -/
def objectiveKpiTerms (g : Graph) (objId : String) : List Term :=
  objectsOf g (Term.uri objId) "hasKPI"

/-- The set of str(kpi) over supportsKPI objects of the supporting actions. -/
def kpisWithActions (g : Graph) (objId : String) : List String :=
  (((supportingActions g objId).flatMap
      (fun a => objectsOf g a "supportsKPI")).map strOf).dedup

/-- The progress values of the supporting actions: every hasProgress object
that parses as an int, the others skipped by the try/except. -/
def progressValues (g : Graph) (objId : String) : List ℤ :=
  (supportingActions g objId).flatMap
    (fun a => (objectsOf g a "hasProgress").filterMap tryInt)

/-- avg_progress: mean of the parsed progress values, 0 when there are none. -/
def avgProgress (g : Graph) (objId : String) : ℚ :=
  let pv := progressValues g objId
  if pv = [] then 0 else ((pv.map (fun p : ℤ => (p : ℚ))).sum) / pv.length

/-- kpi_coverage: covered KPI count over total KPI count, 0 when no KPI. -/
def kpiCoverage (g : Graph) (objId : String) : ℚ :=
  let total := (objectiveKpiTerms g objId).length
  if 0 < total then ((kpisWithActions g objId).length : ℚ) / total else 0

/-- action_density: actions per KPI, capped at 1, 0 when no KPI. -/
def actionDensity (g : Graph) (objId : String) : ℚ :=
  let total := (objectiveKpiTerms g objId).length
  if 0 < total then min (((supportingActions g objId).length : ℚ) / total) 1 else 0

/-- The unrounded alignment score of the ontology scorer.  Note: the source
applies no clamping here. -/
def ontologyScoreRaw (g : Graph) (objId : String) : ℚ :=
  0.4 * actionDensity g objId + 0.4 * kpiCoverage g objId
    + 0.2 * avgProgress g objId / 100

/-- Classification of the ontology score (thresholds 0.75 / 0.50 / 0.25). -/
def classifyOntology (s : ℚ) : String :=
  if s ≥ 0.75 then "Full"
  else if s ≥ 0.50 then "Partial"
  else if s ≥ 0.25 then "Weak"
  else "Missing"

/-- The per-objective result record assembled by compute_ontology_alignment. -/
structure OntologyResult where
  alignment_score : ℚ
  alignment_level : String
  total_actions : ℕ
  total_kpis : ℕ
  kpis_covered : ℕ
  kpi_coverage : ℚ
  avg_progress : ℚ
deriving DecidableEq, Repr

/-- compute_ontology_alignment for one objective id, mirroring the loop body
of src/src/ontology/alignment.py lines 24-82 (published numeric fields are
rounded exactly as in the source). -/
def compute_ontology_alignment (g : Graph) (objId : String) : OntologyResult :=
  { alignment_score := round3 (ontologyScoreRaw g objId)
    alignment_level := classifyOntology (ontologyScoreRaw g objId)
    total_actions := (supportingActions g objId).length
    total_kpis := (objectiveKpiTerms g objId).length
    kpis_covered := (kpisWithActions g objId).length
    kpi_coverage := round3 (kpiCoverage g objId)
    avg_progress := pyRound (avgProgress g objId) 1 }

/-! Embedding of the knowledge-graph builder (src/src/ontology/builder.py).
The regular-expression engine is external: the extraction functions receive
the list of match groups and build the triples exactly as the source does. -/

/-- _progress_to_status (builder.py lines 222-230). -/
def progress_to_status (p : ℤ) : String :=
  if p ≥ 100 then "Completed"
  else if p ≥ 50 then "In Progress"
  else if p > 0 then "Started"
  else "Not Started"

/-- One action-table row match: groups of the action row pattern.  The
progress group matches only digits, hence a natural number. -/
structure ActionRow where
  action_id : String
  desc : String
  owner : String
  deadline : String
  progress : ℕ
deriving DecidableEq, Repr

/-- _uri_safe (builder.py lines 233-235): non-alphanumerics become
underscores, then underscores are stripped from both ends. -/
def uriSafe (s : String) : String :=
  String.mk ((((s.data.map (fun c => if c.isAlphanum then c else '_')).dropWhile
      (fun c => c = '_')).reverse.dropWhile (fun c => c = '_')).reverse)

/-- Python s.replace(oldChar, newChar). -/
def strReplaceChar (oldC newC : Char) (s : String) : String :=
  String.mk (s.data.map (fun c => if c = oldC then newC else c))

/-- The objective-tracking update of _extract_actions: the leading numeral of
the action id selects the objective when it is a substring of "123456". -/
def nextObjective (cur : String) (row : ActionRow) : String :=
  let objNum := strRemoveChar 'A' ((pySplitChar '.' (pyStrip row.action_id)).headI)
  if strContains "123456" objNum then "SO" ++ objNum else cur

/-- The triples added for one action-table row (builder.py lines 117-148). -/
def emitActionRow (ap : Term) (obj : String) (row : ActionRow) : List Triple :=
  let aUri := Term.uri (strReplaceChar '.' '_' (pyStrip row.action_id))
  let owner := pyStrip row.owner
  [⟨aUri, "type", Term.uri "Action"⟩,
   ⟨aUri, "hasTitle", Term.litStr (strTake (pyStrip row.desc) 200)⟩,
   ⟨aUri, "hasDeadline", Term.litStr (pyStrip row.deadline)⟩,
   ⟨aUri, "hasProgress", Term.litInt (row.progress : ℤ)⟩,
   ⟨aUri, "hasStatus", Term.litStr (progress_to_status (row.progress : ℤ))⟩,
   ⟨ap, "hasAction", aUri⟩,
   ⟨aUri, "supportsObjective", Term.uri obj⟩]
  ++ (objectiveKpisOf obj).map (fun k => ⟨aUri, "supportsKPI", Term.uri (obj ++ "_" ++ k)⟩)
  ++ (if owner ≠ "" then [⟨aUri, "ownedBy", Term.uri (uriSafe owner)⟩] else [])

/-- _extract_actions (builder.py lines 109-148): fold over the matched rows,
carrying the current objective, starting from SO1. -/
def extractActionsFrom (cur : String) (ap : Term) : List ActionRow → List Triple
  | [] => []
  | row :: rest =>
      let obj := nextObjective cur row
      emitActionRow ap obj row ++ extractActionsFrom obj ap rest

/-- _extract_actions entry point. -/
def extract_actions (rows : List ActionRow) (ap : Term) : List Triple :=
  extractActionsFrom "SO1" ap rows

/-- The triples added for one addendum match (builder.py lines 157-184),
where i is the zero-based enumeration index. -/
def emitAddendumAction (ap : Term) (i : ℕ) (kpiIdRaw descRaw : String) : List Triple :=
  let kpiId := pyStrip kpiIdRaw
  let desc := pyStrip descRaw
  let obj := (pySplitChar '_' kpiId).headI
  let aUri := Term.uri (obj ++ "_ADD_" ++ toString (i + 1))
  [⟨aUri, "type", Term.uri "Action"⟩,
   ⟨aUri, "hasTitle", Term.litStr (strTake desc 300)⟩,
   ⟨aUri, "hasDeadline", Term.litStr "2029"⟩,
   ⟨aUri, "hasProgress", Term.litInt 20⟩,
   ⟨aUri, "hasStatus", Term.litStr "In Progress"⟩,
   ⟨ap, "hasAction", aUri⟩,
   ⟨aUri, "supportsObjective", Term.uri obj⟩,
   ⟨aUri, "supportsKPI", Term.uri kpiId⟩,
   ⟨aUri, "ownedBy", Term.uri "Strategic_Planning_Team"⟩]

/-- _extract_addendum_actions (builder.py lines 150-184). -/
def extract_addendum_actions (ms : List (String × String)) (ap : Term) : List Triple :=
  ms.enum.flatMap (fun p => emitAddendumAction ap p.1 p.2.1 p.2.2)

/-! Embedding of the score blending of run_full_analysis
(src/src/agents/orchestrator.py lines 99-196). -/

/-- The agent score recalculation (orchestrator.py lines 101-119): with KPI
findings present, blend the coverage ratio with the raw model score, clamp
and round; otherwise keep the raw score. -/
def compute_agent_score (covered uncovered : List String) (raw : ℚ) : ℚ :=
  let total := covered.length + uncovered.length
  if 0 < total then
    round3 (clamp01 (0.8 * ((covered.length : ℚ) / (total : ℚ)) + 0.2 * raw))
  else raw

/-- Level classification of the combined score (orchestrator.py 131-138). -/
def classify_combined (c : ℚ) : String :=
  if c ≥ 0.8 then "Full"
  else if c ≥ 0.6 then "Partial"
  else if c ≥ 0.4 then "Weak"
  else "Missing"

/-- Level classification of the overall score (orchestrator.py 189-196). -/
def classify_overall (s : ℚ) : String :=
  if s ≥ 0.75 then "Full"
  else if s ≥ 0.50 then "Partial"
  else if s ≥ 0.25 then "Weak"
  else "Missing"

/-- Ordering of the four alignment levels, for the monotonicity property. -/
def levelRank (l : String) : ℕ :=
  if l = "Full" then 3
  else if l = "Partial" then 2
  else if l = "Weak" then 1
  else 0

/-- Per-objective published scores of run_full_analysis. -/
structure ObjectiveScores where
  agent_score : ℚ
  ontology_score : ℚ
  combined_score : ℚ
  combined_score_rounded : ℚ
  alignment_level : String
deriving DecidableEq, Repr

/-- The per-objective blending step (orchestrator.py lines 99-138): the
combined score stored in the results dict is unrounded, the copy written
into the sync record is rounded to three digits. -/
def score_objective (covered uncovered : List String) (raw ont : ℚ) : ObjectiveScores :=
  let a := compute_agent_score covered uncovered raw
  let c := 0.8 * a + 0.2 * ont
  { agent_score := a
    ontology_score := ont
    combined_score := c
    combined_score_rounded := round3 c
    alignment_level := classify_combined c }

/-- The per-objective parsed judgment and ontology score feeding one
iteration of the orchestrator loop. -/
structure SyncInput where
  covered : List String
  uncovered : List String
  raw : ℚ
  ontology : ℚ

/-- The numeric core of run_full_analysis: score every objective, then
average the combined scores into the overall score and classify it. -/
def run_full_analysis_scores (inputs : List SyncInput) :
    List ObjectiveScores × ℚ × String :=
  let objs := inputs.map (fun i => score_objective i.covered i.uncovered i.raw i.ontology)
  let n := inputs.length
  let overall := if 0 < n then round3 ((objs.map ObjectiveScores.combined_score).sum / n) else 0
  (objs, overall, classify_overall overall)

/-! Embedding of the retrieval fusion pipeline (src/src/rag/retriever.py
lines 32-113) and the multi-query generation (src/src/rag/hyde.py lines
90-119).  The language-model and vector-index calls are external: the
pure fusion logic receives the per-variant (text, relevance) result lists. -/

/-- One fused result entry: dict key (first 100 characters of the text),
the stored text, accumulated score and retrieval count. -/
structure FusedEntry where
  key : String
  text : String
  score : ℚ
  count : ℕ
deriving DecidableEq, Repr

/-- The dict key of a retrieved document: its first 100 characters. -/
def docKey (d : String × ℚ) : String := strTake d.1 100

/-- Processing one (text, relevance) pair into the accumulator dict
(retriever.py lines 86-98). -/
def insertDoc (acc : List FusedEntry) (d : String × ℚ) : List FusedEntry :=
  if acc.any (fun e => e.key = docKey d) then
    acc.map (fun e =>
      if e.key = docKey d then
        { e with score := e.score + d.2, count := e.count + 1 }
      else e)
  else acc ++ [{ key := docKey d, text := d.1, score := d.2, count := 1 }]

/-- The union-with-accumulation over all query variants. -/
def fuseVariants (variantResults : List (List (String × ℚ))) : List FusedEntry :=
  variantResults.foldl (fun acc v => v.foldl insertDoc acc) []

/-- The multi-hit boost (retriever.py line 108). -/
def boostEntry (e : FusedEntry) : FusedEntry :=
  { e with score := e.score * (1 + 0.1 * ((e.count : ℚ) - 1)) }

/-- Descending order on entry scores. -/
def scoreDescRel : FusedEntry → FusedEntry → Prop := fun a b => b.score ≤ a.score

instance : DecidableRel scoreDescRel :=
  fun a b => inferInstanceAs (Decidable (b.score ≤ a.score))

instance : IsTotal FusedEntry scoreDescRel := ⟨fun a b => le_total b.score a.score⟩

instance : IsTrans FusedEntry scoreDescRel := ⟨fun _ _ _ hab hbc => le_trans hbc hab⟩

/-- sorted(..., key score, reverse) of the source. -/
def sortByScoreDesc (l : List FusedEntry) : List FusedEntry :=
  l.insertionSort scoreDescRel

/-- retrieve_chunks fusion core (retriever.py lines 74-113): accumulate,
sort, boost multi-hit entries, re-sort, keep the top k. -/
def retrieve_chunks_fusion (variantResults : List (List (String × ℚ)))
    (topK : ℕ) : List FusedEntry :=
  let ranked := sortByScoreDesc (fuseVariants variantResults)
  let boosted := ranked.map boostEntry
  (sortByScoreDesc boosted).take topK

/-- The character set of the enumeration-marker lstrip in
generate_multi_queries. -/
def enumMarkerChars : List Char :=
  ['0', '1', '2', '3', '4', '5', '6', '7', '8', '9', '.', '-', ')', ' ']

/-- Parsing one response line of generate_multi_queries (hyde.py 111-117). -/
def parseMultiQueryLine (line : String) : Option String :=
  let l := pyStrip line
  if l ≠ "" ∧ 5 < l.length then
    let cleaned := pyStrip (pyLStrip enumMarkerChars l)
    if cleaned ≠ "" then some cleaned else none
  else none

/-- generate_multi_queries (hyde.py lines 90-119) applied to the response
text of the language model: original query first, parsed reformulations
appended, capped at four texts. -/
def generate_multi_queries (query responseText : String) : List String :=
  let variants := query :: ((pySplitChar '\n' (pyStrip responseText)).filterMap parseMultiQueryLine)
  variants.take 4

/-- The query texts searched by retrieve_chunks (retriever.py lines 59-71)
with multi-query and HyDE both enabled: the multi-query variants, plus the
hypothetical document when its generation did not fail. -/
def retrieve_query_texts (query multiResponse : String) (hydeDoc : Option String) :
    List String :=
  let queries := generate_multi_queries query multiResponse
  match hydeDoc with
  | some d => queries ++ [d]
  | none => queries

/-! Embedding of the evaluation harness (src/src/evaluation/metrics.py) and
its static ground truth (src/src/evaluation/ground_truth.py). -/

/-- EXPECTED_ALIGNMENT (ground_truth.py lines 60-67): objective id,
expected level, expected minimum score. -/
def EXPECTED_ALIGNMENT : List (String × String × ℚ) :=
  [("SO1", "Full", 0.85), ("SO2", "Full", 0.80), ("SO3", "Full", 0.80),
   ("SO4", "Partial", 0.60), ("SO5", "Partial", 0.50), ("SO6", "Full", 0.80)]

/-- EXPECTED_GAPS (ground_truth.py lines 70-76): KPI id and gap type. -/
def EXPECTED_GAPS : List (String × String) :=
  [("SO4_I4", "Missing"), ("SO5_O3", "Missing"), ("SO5_O4", "Missing"),
   ("SO5_O5", "Weak"), ("SO2_R1", "Partial")]

/-- kpi_id.split(underscore)[0]. -/
def gapObjId (kpiId : String) : String := (pySplitChar '_' kpiId).headI

/-- kpi_id.split(underscore)[1] (total variant; every EXPECTED_GAPS id has
an underscore, so the Python index never raises on the static list). -/
def gapKpiSuffix (kpiId : String) : String := (pySplitChar '_' kpiId).getD 1 ""

/-- The per-gap detection test of evaluate_gap_detection (metrics.py lines
120-135): the KPI suffix must be a substring of some reported uncovered-KPI
string of the objective; an empty uncovered list never detects. -/
def gap_detected (uncoveredOf : String → List String) (kpiId : String) : Bool :=
  (uncoveredOf (gapObjId kpiId)).any (fun u => strContains u (gapKpiSuffix kpiId))

/-- Result record of evaluate_gap_detection. -/
structure GapEval where
  total_expected_gaps : ℕ
  detected : List (String × String)
  missed : List (String × String)
  detection_rate : ℚ
deriving DecidableEq, Repr

/-- evaluate_gap_detection (metrics.py lines 113-145), with the reported
uncovered-KPI lists of the system results supplied as a function. -/
def evaluate_gap_detection (uncoveredOf : String → List String) : GapEval :=
  let det := EXPECTED_GAPS.filter (fun g => gap_detected uncoveredOf g.1)
  let mis := EXPECTED_GAPS.filter (fun g => ¬ gap_detected uncoveredOf g.1)
  { total_expected_gaps := EXPECTED_GAPS.length
    detected := det
    missed := mis
    detection_rate :=
      if 0 < EXPECTED_GAPS.length then round3 ((det.length : ℚ) / EXPECTED_GAPS.length) else 0 }

/-- Per-objective system data as read by evaluate_alignment_accuracy: an
absent objective id maps to none, a present one carries its optional
combined score and optional alignment level (absent dict fields are none). -/
def sysFields (sys : String → Option (Option ℚ × Option String)) (oid : String) :
    ℚ × String :=
  match sys oid with
  | none => (0.5, "Partial")
  | some (cs, lv) => (cs.getD 0.5, lv.getD "Partial")

/-- Per-objective entry of evaluate_alignment_accuracy. -/
structure AlignEvalEntry where
  system_score : ℚ
  expected_min_score : ℚ
  system_level : String
  expected_level : String
  level_match : Bool
  score_error : ℚ
deriving DecidableEq, Repr

/-- Result record of evaluate_alignment_accuracy. -/
structure AlignEval where
  per_objective : List (String × AlignEvalEntry)
  level_accuracy : ℚ
  mean_absolute_error : ℚ
  correct_levels : ℕ
  total_objectives : ℕ
deriving DecidableEq, Repr

/-- evaluate_alignment_accuracy (metrics.py lines 59-110): iterate the
static EXPECTED_ALIGNMENT table, substituting the 0.5 / Partial defaults
for data the system results do not carry. -/
def evaluate_alignment_accuracy (sys : String → Option (Option ℚ × Option String)) :
    AlignEval :=
  let per := EXPECTED_ALIGNMENT.map (fun e =>
    let f := sysFields sys e.1
    (e.1,
      { system_score := round3 f.1
        expected_min_score := e.2.2
        system_level := f.2
        expected_level := e.2.1
        level_match := f.2 == e.2.1
        score_error := round3 |f.1 - e.2.2| : AlignEvalEntry }))
  let correct := per.countP (fun p => p.2.level_match)
  let totalMae := (EXPECTED_ALIGNMENT.map (fun e => |(sysFields sys e.1).1 - e.2.2|)).sum
  let n := EXPECTED_ALIGNMENT.length
  { per_objective := per
    level_accuracy := if 0 < n then round3 ((correct : ℚ) / n) else 0
    mean_absolute_error := if 0 < n then round3 (totalMae / n) else 0
    correct_levels := correct
    total_objectives := n }

/-! Embedding of the pipeline cache loader
(src/src/ingestion/pipeline_cache.py lines 46-72).  The except clause of the
source catches only json.JSONDecodeError and IOError, so two paths raise out
of the function: a file whose bytes are not valid UTF-8 makes json.load
raise UnicodeDecodeError, and a JSON toplevel that is not a container
(number, boolean or null) makes the key-membership test at line 63 raise
TypeError.  The loader is therefore modelled as fallible. -/

/-- The exceptions the loader can let escape. -/
inductive PyError where
  | typeError
  | unicodeDecodeError
deriving DecidableEq, Repr

/-- The observable states of the persisted snapshot file: missing; bytes
that do not decode as UTF-8; decodable text that is not JSON; a parsed
JSON toplevel that is not a container, on which the in-operator raises;
or a parsed JSON object with its list of top-level keys. -/
inductive CacheFile where
  | absent
  | undecodable
  | unparseable
  | parsedScalar
  | parsed (keys : List String)
deriving DecidableEq, Repr

/-- load_pipeline_cache: none for a missing file; JSONDecodeError is caught
and yields none; UnicodeDecodeError and the TypeError of the membership
test on a non-container toplevel escape; a parsed object is validated only
for the analysis_results and chunks keys before being returned. -/
def load_pipeline_cache : CacheFile → Except PyError (Option (List String))
  | CacheFile.absent => Except.ok none
  | CacheFile.undecodable => Except.error PyError.unicodeDecodeError
  | CacheFile.unparseable => Except.ok none
  | CacheFile.parsedScalar => Except.error PyError.typeError
  | CacheFile.parsed keys =>
      Except.ok (if "analysis_results" ∈ keys ∧ "chunks" ∈ keys then some keys else none)

/-! Claim-level quantities for the fusion property: per-key relevance sums
and per-key variant hit counts, stated directly from the specification
wording and compared against the fused entries of the implementation. -/

/-- Sum of relevances of the pairs of one flat result list whose key is k. -/
def keyScoreSum (ps : List (String × ℚ)) (k : String) : ℚ :=
  ((ps.filter (fun d => docKey d = k)).map Prod.snd).sum

/-- Number of pairs of one flat result list whose key is k. -/
def keyOccCount (ps : List (String × ℚ)) (k : String) : ℕ :=
  (ps.filter (fun d => docKey d = k)).length

/-- The relevance of key k accumulated over the variant result lists. -/
def variantScoreSum (vs : List (List (String × ℚ))) (k : String) : ℚ :=
  (vs.map (fun v => keyScoreSum v k)).sum

/-- The number of variants whose result list retrieved key k. -/
def variantHitCount (vs : List (List (String × ℚ))) (k : String) : ℕ :=
  vs.countP (fun v => v.any (fun d => docKey d = k))

/-! Concrete instances used by the example clauses of the claims. -/

/-- Example graph: one objective with two KPIs and one action supporting
both at progress 60. -/
def c3Graph : Graph :=
  [⟨Term.uri "SO1", "hasKPI", Term.uri "SO1_D1"⟩,
   ⟨Term.uri "SO1", "hasKPI", Term.uri "SO1_D2"⟩,
   ⟨Term.uri "A1_1", "supportsObjective", Term.uri "SO1"⟩,
   ⟨Term.uri "A1_1", "supportsKPI", Term.uri "SO1_D1"⟩,
   ⟨Term.uri "A1_1", "supportsKPI", Term.uri "SO1_D2"⟩,
   ⟨Term.uri "A1_1", "hasProgress", Term.litInt 60⟩]

/-- Example graph whose single action carries a progress value above 100. -/
def c4Graph : Graph :=
  [⟨Term.uri "SO1", "hasKPI", Term.uri "SO1_D1"⟩,
   ⟨Term.uri "A1_1", "supportsObjective", Term.uri "SO1"⟩,
   ⟨Term.uri "A1_1", "supportsKPI", Term.uri "SO1_D1"⟩,
   ⟨Term.uri "A1_1", "hasProgress", Term.litInt 200⟩]

/-- Example per-variant retrieval results: chunk X found by two of four
variants with relevance sum 1.2, chunk Y found once with relevance 1.2. -/
def c5Variants : List (List (String × ℚ)) :=
  [[("chunk X text", 0.7)], [("chunk X text", 0.5)], [("chunk Y text", 1.2)], []]

/-- Example multi-query response carrying three parseable reformulations. -/
def c6Response : String :=
  "1. first reformulated query text\n2. second reformulated query text\n3. third reformulated query text"



/-! Supporting lemmas. -/

theorem roundHalfEven_ge (q : ℚ) (n : ℤ) (h : (n : ℚ) ≤ q) : n ≤ roundHalfEven q := by
  have hfl : n ≤ ⌊q⌋ := Int.le_floor.mpr h
  unfold roundHalfEven
  dsimp only
  split
  · exact hfl
  · split
    · omega
    · split <;> omega

theorem roundHalfEven_le (q : ℚ) (n : ℤ) (h : q ≤ (n : ℚ)) : roundHalfEven q ≤ n := by
  have hfl : ⌊q⌋ ≤ n := by
    have := Int.floor_le_floor h
    simpa using this
  have hkey : ¬ (q - ⌊q⌋ < 1/2) → ⌊q⌋ + 1 ≤ n := by
    intro hr
    rcases eq_or_lt_of_le hfl with heq | hlt
    · exfalso
      apply hr
      have : q - (⌊q⌋ : ℚ) ≤ 0 := by
        rw [heq]
        linarith
      linarith
    · omega
  unfold roundHalfEven
  dsimp only
  split
  · exact hfl
  · next hr =>
    split
    · exact hkey hr
    · split
      · exact hfl
      · exact hkey hr

theorem pyRound_nonneg (q : ℚ) (d : ℕ) (h : 0 ≤ q) : 0 ≤ pyRound q d := by
  unfold pyRound
  have hpow : (0 : ℚ) < (10 : ℚ) ^ d := by positivity
  have h0 : (0 : ℤ) ≤ roundHalfEven (q * (10 : ℚ) ^ d) := by
    apply roundHalfEven_ge
    push_cast
    positivity
  have : (0 : ℚ) ≤ (roundHalfEven (q * (10 : ℚ) ^ d) : ℚ) := by exact_mod_cast h0
  positivity

theorem pyRound_le_one (q : ℚ) (d : ℕ) (h : q ≤ 1) : pyRound q d ≤ 1 := by
  unfold pyRound
  have hpow : (0 : ℚ) < (10 : ℚ) ^ d := by positivity
  have hup : roundHalfEven (q * (10 : ℚ) ^ d) ≤ (10 : ℤ) ^ d := by
    apply roundHalfEven_le
    push_cast
    nlinarith
  have hc : (roundHalfEven (q * (10 : ℚ) ^ d) : ℚ) ≤ ((10 : ℤ) ^ d : ℚ) := by
    exact_mod_cast hup
  rw [div_le_one hpow]
  push_cast at hc ⊢
  exact hc

theorem round3_nonneg (q : ℚ) (h : 0 ≤ q) : 0 ≤ round3 q := pyRound_nonneg q 3 h

theorem round3_le_one (q : ℚ) (h : q ≤ 1) : round3 q ≤ 1 := pyRound_le_one q 3 h

theorem clamp01_nonneg (q : ℚ) : 0 ≤ clamp01 q := by
  unfold clamp01
  simp [le_min_iff, le_max_iff]

theorem clamp01_le_one (q : ℚ) : clamp01 q ≤ 1 := by
  unfold clamp01
  simp

/-- Evaluation helper: when the scaled value sits strictly below the half-way
point above its floor, rounding truncates. -/
theorem roundHalfEven_eq_low (q : ℚ) (n : ℤ) (h1 : (n : ℚ) ≤ q) (h2 : q - n < 1/2) :
    roundHalfEven q = n := by
  have hfl : ⌊q⌋ = n := by
    rw [Int.floor_eq_iff]
    constructor
    · exact h1
    · linarith
  unfold roundHalfEven
  dsimp only
  rw [hfl]
  rw [if_pos (by linarith)]

/-- Evaluation helper: when the scaled value sits strictly above the half-way
point below its ceiling, rounding goes up. -/
theorem roundHalfEven_eq_high (q : ℚ) (n : ℤ) (h1 : (n : ℚ) + 1/2 < q) (h2 : q < n + 1) :
    roundHalfEven q = n + 1 := by
  have hfl : ⌊q⌋ = n := by
    rw [Int.floor_eq_iff]
    constructor
    · linarith
    · linarith
  unfold roundHalfEven
  dsimp only
  rw [hfl]
  rw [if_neg (by linarith), if_pos (by linarith)]

theorem round3_eq_low (q : ℚ) (n : ℤ) (h1 : (n : ℚ) ≤ q * 1000) (h2 : q * 1000 - n < 1/2) :
    round3 q = (n : ℚ) / 1000 := by
  unfold round3 pyRound
  norm_num
  rw [roundHalfEven_eq_low (q * 1000) n h1 h2]

theorem round3_eq_high (q : ℚ) (n : ℤ) (h1 : (n : ℚ) + 1/2 < q * 1000) (h2 : q * 1000 < n + 1) :
    round3 q = ((n : ℚ) + 1) / 1000 := by
  unfold round3 pyRound
  norm_num
  rw [roundHalfEven_eq_high (q * 1000) n h1 h2]
  push_cast
  ring


/-! Claim C2. -/

/-- Claim C2: classification of a combined score is the monotone step
function with thresholds 0.8 / 0.6 / 0.4, inclusive at the lower edge;
levels only move upward as the score rises, an unchanged score keeps its
level, and a score of exactly 0.8 maps to Full. -/
theorem claim_c2_classification :
    (∀ s t : ℚ, s ≤ t →
        levelRank (classify_combined s) ≤ levelRank (classify_combined t)) ∧
    (∀ s t : ℚ, s = t → classify_combined s = classify_combined t) ∧
    classify_combined 0.8 = "Full" ∧
    (∀ s : ℚ,
      (0.8 ≤ s → classify_combined s = "Full") ∧
      (0.6 ≤ s ∧ s < 0.8 → classify_combined s = "Partial") ∧
      (0.4 ≤ s ∧ s < 0.6 → classify_combined s = "Weak") ∧
      (s < 0.4 → classify_combined s = "Missing")) := by
  refine ⟨?_, ?_, ?_, ?_⟩
  · intro s t hst
    unfold classify_combined
    split_ifs with h1 h2 h3 h4 h5 h6 <;>
      push_neg at * <;>
      first | decide | linarith
  · intro s t h
    rw [h]
  · norm_num [classify_combined]
  · intro s
    refine ⟨?_, ?_, ?_, ?_⟩ <;> intro h <;> unfold classify_combined <;>
      split_ifs with h1 h2 h3 <;>
      push_neg at * <;>
      first | rfl | (exfalso; linarith [h.1, h.2]) | (exfalso; linarith)

/-- Claim C2 witness at the concrete pair 0.5 and 0.8. -/
theorem claim_c2_witness :
    (0.5 : ℚ) ≤ 0.8 ∧
    levelRank (classify_combined 0.5) ≤ levelRank (classify_combined 0.8) :=
  ⟨by norm_num, claim_c2_classification.1 0.5 0.8 (by norm_num)⟩

/-! Claim C9. -/

/-- Claim C9 counterexample: the claim fails twice on the code.  A snapshot
carrying only analysis_results and chunks, hence missing the eval_results
key the claim lists as required, is still returned as cached data; and the
loader does raise: a parsed non-container JSON toplevel such as the number
5 escapes with TypeError, and a file of invalid UTF-8 bytes escapes with
UnicodeDecodeError instead of being treated as no cache. -/
theorem claim_c9_counterexample :
    load_pipeline_cache (CacheFile.parsed ["analysis_results", "chunks"]) =
      Except.ok (some ["analysis_results", "chunks"]) ∧
    "eval_results" ∉ (["analysis_results", "chunks"] : List String) ∧
    load_pipeline_cache CacheFile.parsedScalar = Except.error PyError.typeError ∧
    load_pipeline_cache CacheFile.undecodable = Except.error PyError.unicodeDecodeError := by
  refine ⟨?_, by decide, rfl, rfl⟩
  simp [load_pipeline_cache]

/-- Claim C9 (amended): loading can raise, in exactly two cases the except
clause does not cover: invalid UTF-8 bytes escape with UnicodeDecodeError
and a parsed non-container toplevel escapes with TypeError at the key test.
Otherwise the loader returns normally: an absent file or text that is not
JSON yields None (no cache), a parsed object missing analysis_results or
chunks yields None, and a parsed object carrying those two keys is returned
as cached data whether or not eval_results is present. -/
theorem claim_c9_cache_loading :
    load_pipeline_cache CacheFile.absent = Except.ok none ∧
    load_pipeline_cache CacheFile.unparseable = Except.ok none ∧
    load_pipeline_cache CacheFile.undecodable = Except.error PyError.unicodeDecodeError ∧
    load_pipeline_cache CacheFile.parsedScalar = Except.error PyError.typeError ∧
    (∀ keys : List String,
      ("analysis_results" ∈ keys ∧ "chunks" ∈ keys →
        load_pipeline_cache (CacheFile.parsed keys) = Except.ok (some keys)) ∧
      (("analysis_results" ∉ keys ∨ "chunks" ∉ keys) →
        load_pipeline_cache (CacheFile.parsed keys) = Except.ok none)) := by
  refine ⟨rfl, rfl, rfl, rfl, fun keys => ⟨?_, ?_⟩⟩
  · intro h
    simp [load_pipeline_cache, h.1, h.2]
  · intro h
    simp only [load_pipeline_cache, Except.ok.injEq, ite_eq_right_iff]
    intro hc
    exact absurd hc (by tauto)

/-- Claim C9 witness: a complete snapshot is returned as cached data. -/
theorem claim_c9_witness :
    ("analysis_results" ∈ ["analysis_results", "chunks", "eval_results"] ∧
      "chunks" ∈ ["analysis_results", "chunks", "eval_results"]) ∧
    load_pipeline_cache (CacheFile.parsed ["analysis_results", "chunks", "eval_results"]) =
      Except.ok (some ["analysis_results", "chunks", "eval_results"]) :=
  ⟨⟨by decide, by decide⟩,
    (claim_c9_cache_loading.2.2.2.2 _).1 ⟨by decide, by decide⟩⟩

/-! Claim C6. -/

/-- Claim C6 counterexample: with three parsed reformulations and a
successful HyDE expansion the pipeline searches five query texts, not at
most four as claimed. -/
theorem claim_c6_counterexample :
    (retrieve_query_texts "alignment of objective SO1" c6Response
        (some "hypothetical action plan document")).length = 5 ∧
    ¬ ((retrieve_query_texts "alignment of objective SO1" c6Response
        (some "hypothetical action plan document")).length ≤ 4) := by
  constructor
  · decide
  · decide

/-- Claim C6 (amended): with both expansions enabled at most five query
texts are searched per call (at most four multi-query variants including
the original, plus the HyDE document when its generation succeeds; on HyDE
failure at most four); the original query is always the first searched
text, and the per-variant search breadth constant is 10. -/
theorem claim_c6_query_texts :
    (∀ q r d : String, (retrieve_query_texts q r (some d)).length ≤ 5) ∧
    (∀ q r : String, (retrieve_query_texts q r none).length ≤ 4) ∧
    (∀ (q r : String) (hd : Option String),
        ∃ rest, retrieve_query_texts q r hd = q :: rest) ∧
    RETRIEVAL_TOP_K = 10 := by
  have hmq : ∀ q r : String, ∃ xs : List String,
      generate_multi_queries q r = q :: xs ∧ xs.length ≤ 3 := by
    intro q r
    unfold generate_multi_queries
    refine ⟨((pySplitChar '\n' (pyStrip r)).filterMap parseMultiQueryLine).take 3, ?_, ?_⟩
    · rfl
    · simp [List.length_take]
  refine ⟨?_, ?_, ?_, rfl⟩
  · intro q r d
    obtain ⟨xs, hx, hlen⟩ := hmq q r
    simp [retrieve_query_texts, hx]
    omega
  · intro q r
    obtain ⟨xs, hx, hlen⟩ := hmq q r
    simp [retrieve_query_texts, hx]
    omega
  · intro q r hd
    obtain ⟨xs, hx, _⟩ := hmq q r
    cases hd with
    | none => exact ⟨xs, by simp [retrieve_query_texts, hx]⟩
    | some d => exact ⟨xs ++ [d], by simp [retrieve_query_texts, hx]⟩

/-- Claim C6 witness at a concrete query, response and HyDE document. -/
theorem claim_c6_witness :
    (retrieve_query_texts "query text" c6Response (some "hyde document")).length ≤ 5 :=
  claim_c6_query_texts.1 "query text" c6Response "hyde document"

/-! Claim C1. -/

/-- Claim C1 counterexample: with one covered and two uncovered KPI ids and
a raw score of 0, the published agent score is the three-digit rounding
267/1000 of the clamp formula value 4/15, hence not equal to the clamp
formula value itself as the claim states. -/
theorem claim_c1_counterexample :
    0 < (["D1"] : List String).length + (["D2", "D3"] : List String).length ∧
    compute_agent_score ["D1"] ["D2", "D3"] 0 ≠
      clamp01 (0.8 * (((["D1"] : List String).length : ℚ) /
        (((["D1"] : List String).length + (["D2", "D3"] : List String).length : ℕ) : ℚ)) + 0.2 * 0) := by
  constructor
  · decide
  · have hval : clamp01 ((4 : ℚ) / 15) = 4 / 15 := by
      unfold clamp01
      norm_num
    have hlhs : compute_agent_score ["D1"] ["D2", "D3"] 0 = 267 / 1000 := by
      unfold compute_agent_score
      norm_num
      rw [hval]
      rw [round3_eq_high (4 / 15) 266 (by norm_num) (by norm_num)]
      norm_num
    simp only [List.length_cons, List.length_nil]
    norm_num
    rw [hlhs, hval]
    norm_num

/-- Claim C1 (amended): with KPI findings present the published agent score
is the clamp formula value rounded to three digits; with none it is the raw
score unchanged; the stored combined score is exactly 0.8 agent plus 0.2
ontology; covered 3, uncovered 1, raw 0.9 yields 0.78, and 0.78 with
ontology 0.5 yields 0.724. -/
theorem claim_c1_agent_and_combined :
    (∀ (covered uncovered : List String) (raw : ℚ),
      0 < covered.length + uncovered.length →
      compute_agent_score covered uncovered raw =
        round3 (clamp01 (0.8 * ((covered.length : ℚ) /
          ((covered.length + uncovered.length : ℕ) : ℚ)) + 0.2 * raw))) ∧
    (∀ (covered uncovered : List String) (raw : ℚ),
      covered.length + uncovered.length = 0 →
      compute_agent_score covered uncovered raw = raw) ∧
    (∀ (covered uncovered : List String) (raw ont : ℚ),
      (score_objective covered uncovered raw ont).combined_score =
        0.8 * compute_agent_score covered uncovered raw + 0.2 * ont) ∧
    compute_agent_score ["D1", "D2", "D3"] ["D4"] 0.9 = 0.78 ∧
    (score_objective ["D1", "D2", "D3"] ["D4"] 0.9 0.5).combined_score = 0.724 := by
  have hagent : compute_agent_score ["D1", "D2", "D3"] ["D4"] 0.9 = 0.78 := by
    unfold compute_agent_score
    norm_num
    have hval : clamp01 ((39 : ℚ) / 50) = 39 / 50 := by
      unfold clamp01
      norm_num
    rw [hval]
    rw [round3_eq_low (39 / 50) 780 (by norm_num) (by norm_num)]
    norm_num
  refine ⟨?_, ?_, ?_, hagent, ?_⟩
  · intro covered uncovered raw h
    unfold compute_agent_score
    rw [if_pos h]
  · intro covered uncovered raw h
    unfold compute_agent_score
    rw [if_neg (by omega)]
  · intro covered uncovered raw ont
    rfl
  · show (score_objective ["D1", "D2", "D3"] ["D4"] 0.9 0.5).combined_score = 0.724
    have : (score_objective ["D1", "D2", "D3"] ["D4"] 0.9 0.5).combined_score =
        0.8 * compute_agent_score ["D1", "D2", "D3"] ["D4"] 0.9 + 0.2 * 0.5 := rfl
    rw [this, hagent]
    norm_num

/-- Claim C1 witness at covered 3, uncovered 1, raw 0.9. -/
theorem claim_c1_witness :
    0 < (["D1", "D2", "D3"] : List String).length + (["D4"] : List String).length ∧
    compute_agent_score ["D1", "D2", "D3"] ["D4"] 0.9 =
      round3 (clamp01 (0.8 * (((["D1", "D2", "D3"] : List String).length : ℚ) /
        (((["D1", "D2", "D3"] : List String).length + (["D4"] : List String).length : ℕ) : ℚ)) + 0.2 * 0.9)) :=
  ⟨by decide, claim_c1_agent_and_combined.1 ["D1", "D2", "D3"] ["D4"] 0.9 (by decide)⟩

/-! Claim C7. -/

/-- Among the triples emitted for one action-table row, the status literal
is the deterministic function of the progress of that row, and the matching
progress triple is emitted alongside it. -/
theorem emitActionRow_hasStatus {ap : Term} {obj : String} {row : ActionRow}
    {a st : Term} (h : Triple.mk a "hasStatus" st ∈ emitActionRow ap obj row) :
    st = Term.litStr (progress_to_status (row.progress : ℤ)) ∧
    Triple.mk a "hasProgress" (Term.litInt (row.progress : ℤ)) ∈ emitActionRow ap obj row := by
  unfold emitActionRow at h ⊢
  simp only [List.mem_append, List.mem_cons, List.mem_map, List.not_mem_nil,
    Triple.mk.injEq, or_false] at h
  rcases h with (h | h) | h
  · simp only [String.reduceEq, true_and, and_true, and_false, false_and, or_false,
      false_or] at h
    obtain ⟨ha, hst⟩ := h
    subst ha
    subst hst
    refine ⟨rfl, ?_⟩
    simp
  · obtain ⟨k, _, _, hpred, _⟩ := h
    exact absurd hpred.symm (by decide)
  · by_cases how : pyStrip row.owner ≠ ""
    · rw [if_pos how] at h
      simp only [List.mem_singleton, Triple.mk.injEq] at h
      exact absurd h.2.1 (by decide)
    · rw [if_neg how] at h
      simp at h

/-- Table-row actions: every status triple produced by _extract_actions
carries exactly the status derived from the progress of its row, with the
progress triple present in the same graph. -/
theorem extractActionsFrom_status (rows : List ActionRow) :
    ∀ (cur : String) (ap a st : Term),
      Triple.mk a "hasStatus" st ∈ extractActionsFrom cur ap rows →
      ∃ p : ℕ, st = Term.litStr (progress_to_status (p : ℤ)) ∧
        Triple.mk a "hasProgress" (Term.litInt (p : ℤ)) ∈ extractActionsFrom cur ap rows := by
  induction rows with
  | nil =>
    intro cur ap a st h
    simp [extractActionsFrom] at h
  | cons row rest ih =>
    intro cur ap a st h
    simp only [extractActionsFrom] at h ⊢
    rcases List.mem_append.mp h with h | h
    · obtain ⟨hst, hmem⟩ := emitActionRow_hasStatus h
      exact ⟨row.progress, hst, List.mem_append_left _ hmem⟩
    · obtain ⟨p, hst, hmem⟩ := ih _ ap a st h
      exact ⟨p, hst, List.mem_append_right _ hmem⟩

/-- Among the triples emitted for one addendum match, the status literal is
the fixed In Progress string, and the progress triple carries the fixed
value 20. -/
theorem emitAddendumAction_hasStatus {ap : Term} {i : ℕ} {k d : String}
    {a st : Term} (h : Triple.mk a "hasStatus" st ∈ emitAddendumAction ap i k d) :
    st = Term.litStr "In Progress" ∧
    Triple.mk a "hasProgress" (Term.litInt 20) ∈ emitAddendumAction ap i k d := by
  unfold emitAddendumAction at h ⊢
  simp only [List.mem_cons, List.not_mem_nil, Triple.mk.injEq, or_false] at h
  simp only [String.reduceEq, true_and, and_true, and_false, false_and, or_false,
    false_or] at h
  obtain ⟨ha, hst⟩ := h
  subst ha
  subst hst
  refine ⟨rfl, ?_⟩
  simp

/-- Claim C7 counterexample: the addendum action built from the bracket
line for KPI SO1_D1 carries progress 20 together with status In Progress,
while the deterministic status function maps progress 20 to Started; hence
not every built action satisfies the claimed status invariant. -/
theorem claim_c7_counterexample :
    Triple.mk (Term.uri "SO1_ADD_1") "hasProgress" (Term.litInt 20) ∈
      extract_addendum_actions [("SO1_D1", "Ensure every module meets the standard")]
        (Term.uri "GreenFieldActionPlan") ∧
    Triple.mk (Term.uri "SO1_ADD_1") "hasStatus" (Term.litStr "In Progress") ∈
      extract_addendum_actions [("SO1_D1", "Ensure every module meets the standard")]
        (Term.uri "GreenFieldActionPlan") ∧
    progress_to_status 20 = "Started" ∧
    ("In Progress" : String) ≠ "Started" := by
  refine ⟨by decide, by decide, by decide, by decide⟩

/-- Claim C7 (amended): every status triple of a table-row action is the
deterministic function of that action's progress; addendum actions instead
always carry the fixed pair progress 20 and status In Progress (which is
not the value Started that the status function assigns to progress 20). -/
theorem claim_c7_status_invariant :
    (∀ (rows : List ActionRow) (cur : String) (ap a st : Term),
      Triple.mk a "hasStatus" st ∈ extractActionsFrom cur ap rows →
      ∃ p : ℕ, st = Term.litStr (progress_to_status (p : ℤ)) ∧
        Triple.mk a "hasProgress" (Term.litInt (p : ℤ)) ∈ extractActionsFrom cur ap rows) ∧
    (∀ (ms : List (String × String)) (ap a st : Term),
      Triple.mk a "hasStatus" st ∈ extract_addendum_actions ms ap →
      st = Term.litStr "In Progress" ∧
      Triple.mk a "hasProgress" (Term.litInt 20) ∈ extract_addendum_actions ms ap) ∧
    progress_to_status 20 = "Started" := by
  refine ⟨fun rows => extractActionsFrom_status rows, ?_, by decide⟩
  intro ms ap a st h
  unfold extract_addendum_actions at h ⊢
  rcases List.mem_flatMap.mp h with ⟨pr, hpr, hmem⟩
  obtain ⟨hst, hp⟩ := emitAddendumAction_hasStatus hmem
  exact ⟨hst, List.mem_flatMap.mpr ⟨pr, hpr, hp⟩⟩

/-- Claim C7 witness: applying the table-row part to one concrete row. -/
theorem claim_c7_witness :
    Triple.mk (Term.uri "A1_1") "hasStatus" (Term.litStr "In Progress") ∈
      extractActionsFrom "SO1" (Term.uri "GreenFieldActionPlan")
        [⟨"A1.1", "Deploy the platform", "IT Services", "2026", 60⟩] ∧
    ∃ p : ℕ, Term.litStr "In Progress" = Term.litStr (progress_to_status (p : ℤ)) ∧
      Triple.mk (Term.uri "A1_1") "hasProgress" (Term.litInt (p : ℤ)) ∈
        extractActionsFrom "SO1" (Term.uri "GreenFieldActionPlan")
          [⟨"A1.1", "Deploy the platform", "IT Services", "2026", 60⟩] :=
  ⟨by decide,
    claim_c7_status_invariant.1
      [⟨"A1.1", "Deploy the platform", "IT Services", "2026", 60⟩]
      "SO1" (Term.uri "GreenFieldActionPlan") (Term.uri "A1_1")
      (Term.litStr "In Progress") (by decide)⟩

/-! Claim C8. -/

/-- Claim C8: an expected gap is reported detected exactly when the short
KPI suffix occurs as a substring of some reported uncovered-KPI string of
that KPI's objective; an uncovered list containing D1 flags SO1_D1, and an
uncovered list containing the longer id D10 also matches a search for D1. -/
theorem claim_c8_gap_detection :
    (∀ (uncoveredOf : String → List String), ∀ g ∈ EXPECTED_GAPS,
      (g ∈ (evaluate_gap_detection uncoveredOf).detected ↔
        ∃ u ∈ uncoveredOf (gapObjId g.1), strContains u (gapKpiSuffix g.1) = true)) ∧
    gap_detected (fun o => if o = "SO1" then ["D1"] else []) "SO1_D1" = true ∧
    gap_detected (fun o => if o = "SO1" then ["D10"] else []) "SO1_D1" = true := by
  refine ⟨?_, by decide, by decide⟩
  intro f g hg
  simp [evaluate_gap_detection, List.mem_filter, hg, gap_detected, List.any_eq_true]

/-- Claim C8 witness: the detection test applied to the first expected gap
with uncovered list containing I4. -/
theorem claim_c8_witness :
    ("SO4_I4", "Missing") ∈ EXPECTED_GAPS ∧
    ((("SO4_I4", "Missing") ∈ (evaluate_gap_detection (fun _ => ["I4"])).detected) ↔
      ∃ u ∈ (fun _ : String => ["I4"]) (gapObjId "SO4_I4"),
        strContains u (gapKpiSuffix "SO4_I4") = true) :=
  ⟨by decide, claim_c8_gap_detection.1 (fun _ => ["I4"]) ("SO4_I4", "Missing") (by decide)⟩

/-! Claim C10. -/

/-- Claim C10: alignment-accuracy evaluation iterates the six EXPECTED_ALIGNMENT
objectives SO1 through SO6; the pipeline enumerates only SO1 through SO5, so
SO6 is always absent and receives the defaults combined_score 0.5 and level
Partial, contributing a guaranteed level mismatch against expected Full and a
fixed absolute score error of 0.3, with level accuracy computed over
denominator 6. -/
theorem claim_c10_eval_so6 :
    EXPECTED_ALIGNMENT.map Prod.fst = ["SO1", "SO2", "SO3", "SO4", "SO5", "SO6"] ∧
    "SO6" ∉ strategicObjectiveIds ∧
    (∀ sys : String → Option (Option ℚ × Option String),
      (∀ oid, (sys oid).isSome = true → oid ∈ strategicObjectiveIds) →
      (evaluate_alignment_accuracy sys).total_objectives = 6 ∧
      (evaluate_alignment_accuracy sys).per_objective.get? 5 = some ("SO6",
        { system_score := 0.5, expected_min_score := 0.80, system_level := "Partial",
          expected_level := "Full", level_match := false, score_error := 0.3 }) ∧
      (evaluate_alignment_accuracy sys).level_accuracy =
        round3 (((evaluate_alignment_accuracy sys).correct_levels : ℚ) / 6) ∧
      (evaluate_alignment_accuracy sys).correct_levels ≤ 5) := by
  refine ⟨by decide, by decide, ?_⟩
  intro sys h
  have hnone : sys "SO6" = none := by
    rcases hs : sys "SO6" with _ | v
    · rfl
    · exfalso
      have hmem := h "SO6" (by rw [hs]; rfl)
      revert hmem
      decide
  have hfields : sysFields sys "SO6" = (0.5, "Partial") := by
    simp [sysFields, hnone]
  have hs5 : round3 (0.5 : ℚ) = 0.5 := by
    rw [round3_eq_low (0.5 : ℚ) 500 (by norm_num) (by norm_num)]
    norm_num
  have herr : round3 |(0.5 : ℚ) - 0.80| = 0.3 := by
    have habs : |(0.5 : ℚ) - 0.80| = 0.3 := by
      rw [abs_of_nonpos (by norm_num)]
      norm_num
    rw [habs, round3_eq_low (0.3 : ℚ) 300 (by norm_num) (by norm_num)]
    norm_num
  refine ⟨rfl, ?_, ?_, ?_⟩
  · show (EXPECTED_ALIGNMENT.map _).get? 5 = _
    rw [List.get?_map]
    show (some (("SO6", "Full", (0.80 : ℚ)))).map _ = _
    simp only [Option.map_some]
    refine congrArg some ?_
    refine Prod.ext rfl ?_
    show ({ system_score := round3 (sysFields sys "SO6").1,
            expected_min_score := 0.80,
            system_level := (sysFields sys "SO6").2,
            expected_level := "Full",
            level_match := (sysFields sys "SO6").2 == "Full",
            score_error := round3 |(sysFields sys "SO6").1 - 0.80| } : AlignEvalEntry) = _
    rw [hfields]
    simp only
    refine AlignEvalEntry.mk.injEq _ _ _ _ _ _ _ _ _ _ _ _ |>.mpr ?_
    exact ⟨hs5, rfl, rfl, rfl, by decide, herr⟩
  · have hlen : EXPECTED_ALIGNMENT.length = 6 := rfl
    have hacc : (evaluate_alignment_accuracy sys).level_accuracy =
        if 0 < EXPECTED_ALIGNMENT.length then
          round3 (((evaluate_alignment_accuracy sys).correct_levels : ℚ) /
            (EXPECTED_ALIGNMENT.length : ℚ))
        else 0 := rfl
    rw [hacc, hlen, if_pos (by norm_num)]
    norm_num
  · set per := EXPECTED_ALIGNMENT.map (fun e =>
      let f := sysFields sys e.1
      (e.1,
        { system_score := round3 f.1
          expected_min_score := e.2.2
          system_level := f.2
          expected_level := e.2.1
          level_match := f.2 == e.2.1
          score_error := round3 |f.1 - e.2.2| : AlignEvalEntry})) with hper
    show per.countP (fun p => p.2.level_match) ≤ 5
    have hsplit : per = per.take 5 ++ per.drop 5 := (List.take_append_drop 5 per).symm
    rw [hsplit, List.countP_append]
    have hdrop : per.drop 5 = [("SO6",
        { system_score := round3 (sysFields sys "SO6").1
          expected_min_score := 0.80
          system_level := (sysFields sys "SO6").2
          expected_level := "Full"
          level_match := (sysFields sys "SO6").2 == "Full"
          score_error := round3 |(sysFields sys "SO6").1 - 0.80| : AlignEvalEntry })] := by
      rw [hper]
      rfl
    have hcd : (per.drop 5).countP (fun p => p.2.level_match) = 0 := by
      rw [hdrop]
      simp only [List.countP_cons, List.countP_nil, hfields]
      decide
    have hct : (per.take 5).countP (fun p => p.2.level_match) ≤ 5 := by
      calc (per.take 5).countP (fun p => p.2.level_match) ≤ (per.take 5).length :=
            List.countP_le_length _
        _ ≤ 5 := by
            rw [List.length_take]
            exact min_le_left _ _
    omega

/-- Claim C10 witness at the empty system-results map. -/
theorem claim_c10_witness :
    (∀ oid, ((fun _ : String => (none : Option (Option ℚ × Option String))) oid).isSome = true →
      oid ∈ strategicObjectiveIds) ∧
    (evaluate_alignment_accuracy (fun _ => none)).total_objectives = 6 :=
  ⟨fun oid hx => absurd hx (by simp),
    (claim_c10_eval_so6.2.2 (fun _ => none) (fun oid hx => absurd hx (by simp))).1⟩

/-! Claim C3. -/

/-- Pointwise-equal functions give equal flat maps. -/
theorem flatMap_congr_of_mem {α β : Type} (l : List α) (f h : α → List β)
    (H : ∀ a ∈ l, f a = h a) : l.flatMap f = l.flatMap h := by
  induction l with
  | nil => rfl
  | cons a t ih =>
    simp only [List.flatMap_cons]
    rw [H a (by simp), ih (fun x hx => H x (by simp [hx]))]

/-- Flat-mapping singletons is mapping. -/
theorem flatMap_singleton_eq_map {α β : Type} (l : List α) (f : α → β) :
    l.flatMap (fun a => [f a]) = l.map f := by
  induction l with
  | nil => rfl
  | cons a t ih => simp only [List.flatMap_cons, List.map_cons, List.singleton_append, ih]

/-- Claim C3: for every graph and objective the ontology scorer computes
action density min(count over KPIs, 1), KPI coverage as covered over total,
average progress as the mean over the supporting actions (given each action
carries one integer progress literal), blends them with weights 0.4, 0.4,
0.2, and classifies with thresholds 0.75 / 0.50 / 0.25; the two-KPI,
one-action, progress-60 instance scores 0.72 with level Partial. -/
theorem claim_c3_ontology_formulas :
    (∀ (g : Graph) (objId : String),
      (actionDensity g objId = if (objectiveKpiTerms g objId).length = 0 then 0
        else min (((supportingActions g objId).length : ℚ) /
          ((objectiveKpiTerms g objId).length : ℚ)) 1) ∧
      (kpiCoverage g objId = if (objectiveKpiTerms g objId).length = 0 then 0
        else ((kpisWithActions g objId).length : ℚ) /
          ((objectiveKpiTerms g objId).length : ℚ)) ∧
      (∀ pv : Term → ℤ,
        (∀ a ∈ supportingActions g objId,
          objectsOf g a "hasProgress" = [Term.litInt (pv a)]) →
        avgProgress g objId = if supportingActions g objId = [] then 0
          else ((supportingActions g objId).map (fun a => ((pv a : ℚ)))).sum /
            ((supportingActions g objId).length : ℚ)) ∧
      ontologyScoreRaw g objId = 0.4 * actionDensity g objId + 0.4 * kpiCoverage g objId
        + 0.2 * (avgProgress g objId / 100) ∧
      (compute_ontology_alignment g objId).alignment_level =
        classifyOntology (ontologyScoreRaw g objId) ∧
      (∀ s : ℚ, (0.75 ≤ s → classifyOntology s = "Full") ∧
        (0.50 ≤ s ∧ s < 0.75 → classifyOntology s = "Partial") ∧
        (0.25 ≤ s ∧ s < 0.50 → classifyOntology s = "Weak") ∧
        (s < 0.25 → classifyOntology s = "Missing"))) ∧
    ontologyScoreRaw c3Graph "SO1" = 0.72 ∧
    (compute_ontology_alignment c3Graph "SO1").alignment_level = "Partial" ∧
    (compute_ontology_alignment c3Graph "SO1").alignment_score = 0.72 := by
  have hAl : (supportingActions c3Graph "SO1").length = 1 := by decide
  have hk : (objectiveKpiTerms c3Graph "SO1").length = 2 := by decide
  have hkc : (kpisWithActions c3Graph "SO1").length = 2 := by decide
  have hpv : progressValues c3Graph "SO1" = [60] := by decide
  have havg : avgProgress c3Graph "SO1" = 60 := by
    unfold avgProgress
    rw [hpv]
    norm_num
  have hden : actionDensity c3Graph "SO1" = 1 / 2 := by
    unfold actionDensity
    rw [hk, hAl, if_pos (by norm_num)]
    rw [min_eq_left (by norm_num)]
    norm_num
  have hcov : kpiCoverage c3Graph "SO1" = 1 := by
    unfold kpiCoverage
    rw [hk, hkc, if_pos (by norm_num)]
    norm_num
  have hraw : ontologyScoreRaw c3Graph "SO1" = 0.72 := by
    unfold ontologyScoreRaw
    rw [havg, hden, hcov]
    norm_num
  refine ⟨?_, hraw, ?_, ?_⟩
  · intro g objId
    refine ⟨?_, ?_, ?_, ?_, rfl, ?_⟩
    · unfold actionDensity
      by_cases htot : (objectiveKpiTerms g objId).length = 0
      · simp [htot]
      · rw [if_pos (Nat.pos_of_ne_zero htot), if_neg htot]
    · unfold kpiCoverage
      by_cases htot : (objectiveKpiTerms g objId).length = 0
      · simp [htot]
      · rw [if_pos (Nat.pos_of_ne_zero htot), if_neg htot]
    · intro pv hpvg
      unfold avgProgress progressValues
      have hfm : (supportingActions g objId).flatMap
          (fun a => (objectsOf g a "hasProgress").filterMap tryInt) =
          (supportingActions g objId).map pv := by
        rw [flatMap_congr_of_mem _ _ (fun a => [pv a])
          (fun a ha => by rw [hpvg a ha]; rfl)]
        exact flatMap_singleton_eq_map _ _
      rw [hfm]
      by_cases hA : supportingActions g objId = []
      · simp [hA]
      · rw [if_neg (by simpa using hA), if_neg hA]
        rw [List.map_map, List.length_map]
        rfl
    · unfold ontologyScoreRaw
      ring
    · intro s
      refine ⟨?_, ?_, ?_, ?_⟩ <;> intro h <;> unfold classifyOntology <;>
        split_ifs with h1 h2 h3 <;>
        push_neg at * <;>
        first | rfl | (exfalso; linarith [h.1, h.2]) | (exfalso; linarith)
  · show classifyOntology (ontologyScoreRaw c3Graph "SO1") = "Partial"
    rw [hraw]
    unfold classifyOntology
    rw [if_neg (by norm_num), if_pos (by norm_num)]
  · show round3 (ontologyScoreRaw c3Graph "SO1") = 0.72
    rw [hraw, round3_eq_low (0.72 : ℚ) 720 (by norm_num) (by norm_num)]
    norm_num

/-- Claim C3 witness: the mean-progress clause applied to the concrete
graph with the constant progress assignment 60. -/
theorem claim_c3_witness :
    (∀ a ∈ supportingActions c3Graph "SO1",
      objectsOf c3Graph a "hasProgress" = [Term.litInt ((fun _ : Term => (60 : ℤ)) a)]) ∧
    avgProgress c3Graph "SO1" = if supportingActions c3Graph "SO1" = [] then 0
      else ((supportingActions c3Graph "SO1").map
          (fun a => (((fun _ : Term => (60 : ℤ)) a : ℤ) : ℚ))).sum /
        ((supportingActions c3Graph "SO1").length : ℚ) :=
  ⟨by decide,
    (claim_c3_ontology_formulas.1 c3Graph "SO1").2.2.1 (fun _ => (60 : ℤ)) (by decide)⟩

/-! Claim C4. -/

/-- Claim C4 counterexample: for the graph whose single action carries
progress 200, the published ontology alignment score is 1.2, outside the
interval the claim asserts it is clamped to. -/
theorem claim_c4_counterexample :
    (compute_ontology_alignment c4Graph "SO1").alignment_score = 6 / 5 ∧
    ¬ ((compute_ontology_alignment c4Graph "SO1").alignment_score ≤ 1) := by
  have hAl : (supportingActions c4Graph "SO1").length = 1 := by decide
  have hk : (objectiveKpiTerms c4Graph "SO1").length = 1 := by decide
  have hkc : (kpisWithActions c4Graph "SO1").length = 1 := by decide
  have hpv : progressValues c4Graph "SO1" = [200] := by decide
  have havg : avgProgress c4Graph "SO1" = 200 := by
    unfold avgProgress
    rw [hpv]
    norm_num
  have hden : actionDensity c4Graph "SO1" = 1 := by
    unfold actionDensity
    rw [hk, hAl, if_pos (by norm_num)]
    norm_num
  have hcov : kpiCoverage c4Graph "SO1" = 1 := by
    unfold kpiCoverage
    rw [hk, hkc, if_pos (by norm_num)]
    norm_num
  have hraw : ontologyScoreRaw c4Graph "SO1" = 6 / 5 := by
    unfold ontologyScoreRaw
    rw [havg, hden, hcov]
    norm_num
  have hscore : (compute_ontology_alignment c4Graph "SO1").alignment_score = 6 / 5 := by
    show round3 (ontologyScoreRaw c4Graph "SO1") = 6 / 5
    rw [hraw, round3_eq_low ((6 : ℚ) / 5) 1200 (by norm_num) (by norm_num)]
    norm_num
  exact ⟨hscore, by rw [hscore]; norm_num⟩

/-- Claim C4 (amended): the ontology score is not clamped in the code, but
it lies in the unit interval whenever every parsed progress value lies in
[0, 100] and the covered-KPI count does not exceed the KPI count (which
holds for builder graphs, whose actions support only KPIs of their
objective); under raw scores and ontology scores in [0, 1], every agent
score, combined score and the overall score of a run lie in [0, 1]. -/
theorem claim_c4_score_bounds :
    (∀ (g : Graph) (objId : String),
      (∀ p ∈ progressValues g objId, 0 ≤ p ∧ p ≤ 100) →
      (kpisWithActions g objId).length ≤ (objectiveKpiTerms g objId).length →
      0 ≤ (compute_ontology_alignment g objId).alignment_score ∧
        (compute_ontology_alignment g objId).alignment_score ≤ 1) ∧
    (∀ inputs : List SyncInput,
      (∀ i ∈ inputs, (0 ≤ i.raw ∧ i.raw ≤ 1) ∧ (0 ≤ i.ontology ∧ i.ontology ≤ 1)) →
      (∀ o ∈ (run_full_analysis_scores inputs).1,
        (0 ≤ o.agent_score ∧ o.agent_score ≤ 1) ∧
        (0 ≤ o.combined_score ∧ o.combined_score ≤ 1)) ∧
      (0 ≤ (run_full_analysis_scores inputs).2.1 ∧
        (run_full_analysis_scores inputs).2.1 ≤ 1)) := by
  have hagent : ∀ (c u : List String) (r : ℚ), 0 ≤ r → r ≤ 1 →
      0 ≤ compute_agent_score c u r ∧ compute_agent_score c u r ≤ 1 := by
    intro c u r h0 h1
    unfold compute_agent_score
    dsimp only
    split_ifs with h
    · exact ⟨round3_nonneg _ (clamp01_nonneg _), round3_le_one _ (clamp01_le_one _)⟩
    · exact ⟨h0, h1⟩
  constructor
  · intro g objId hp hsub
    have hden : 0 ≤ actionDensity g objId ∧ actionDensity g objId ≤ 1 := by
      unfold actionDensity
      dsimp only
      split_ifs with h
      · exact ⟨le_min (by positivity) (by norm_num), min_le_right _ _⟩
      · norm_num
    have hcov : 0 ≤ kpiCoverage g objId ∧ kpiCoverage g objId ≤ 1 := by
      unfold kpiCoverage
      dsimp only
      split_ifs with h
      · constructor
        · positivity
        · rw [div_le_one (by exact_mod_cast h)]
          exact_mod_cast hsub
      · norm_num
    have havg : 0 ≤ avgProgress g objId ∧ avgProgress g objId ≤ 100 := by
      unfold avgProgress
      dsimp only
      split_ifs with h
      · norm_num
      · have hlen : 0 < (progressValues g objId).length := List.length_pos.mpr h
        have hlenq : (0 : ℚ) < ((progressValues g objId).length : ℚ) := by
          exact_mod_cast hlen
        constructor
        · apply div_nonneg _ (le_of_lt hlenq)
          apply List.sum_nonneg
          intro x hx
          rcases List.mem_map.mp hx with ⟨p, hpin, rfl⟩
          exact_mod_cast (hp p hpin).1
        · rw [div_le_iff hlenq]
          have hb : ((progressValues g objId).map (fun p : ℤ => (p : ℚ))).sum ≤
              ((progressValues g objId).map (fun p : ℤ => (p : ℚ))).length • (100 : ℚ) := by
            apply List.sum_le_card_nsmul
            intro x hx
            rcases List.mem_map.mp hx with ⟨p, hpin, rfl⟩
            exact_mod_cast (hp p hpin).2
          rw [List.length_map, nsmul_eq_mul] at hb
          linarith
    have hraw : 0 ≤ ontologyScoreRaw g objId ∧ ontologyScoreRaw g objId ≤ 1 := by
      unfold ontologyScoreRaw
      constructor <;> linarith [hden.1, hden.2, hcov.1, hcov.2, havg.1, havg.2]
    exact ⟨round3_nonneg _ hraw.1, round3_le_one _ hraw.2⟩
  · intro inputs hin
    have hobj : ∀ o ∈ (run_full_analysis_scores inputs).1,
        (0 ≤ o.agent_score ∧ o.agent_score ≤ 1) ∧
        (0 ≤ o.combined_score ∧ o.combined_score ≤ 1) := by
      intro o ho
      have hmap : (run_full_analysis_scores inputs).1 =
          inputs.map (fun i => score_objective i.covered i.uncovered i.raw i.ontology) := rfl
      rw [hmap] at ho
      rcases List.mem_map.mp ho with ⟨i, hi, rfl⟩
      obtain ⟨⟨hr0, hr1⟩, ho0, ho1⟩ := hin i hi
      have ha := hagent i.covered i.uncovered i.raw hr0 hr1
      refine ⟨ha, ?_⟩
      have hc : (score_objective i.covered i.uncovered i.raw i.ontology).combined_score =
          0.8 * compute_agent_score i.covered i.uncovered i.raw + 0.2 * i.ontology := rfl
      rw [hc]
      constructor <;> linarith [ha.1, ha.2]
    refine ⟨hobj, ?_⟩
    have hov : (run_full_analysis_scores inputs).2.1 =
        if 0 < inputs.length then
          round3 ((((run_full_analysis_scores inputs).1).map ObjectiveScores.combined_score).sum /
            (inputs.length : ℚ))
        else 0 := rfl
    rw [hov]
    split_ifs with hn
    · have hnq : (0 : ℚ) < (inputs.length : ℚ) := by exact_mod_cast hn
      have hlenobjs : ((run_full_analysis_scores inputs).1).length = inputs.length := by
        show (inputs.map _).length = inputs.length
        exact List.length_map _ _
      have hsum0 : 0 ≤ (((run_full_analysis_scores inputs).1).map ObjectiveScores.combined_score).sum := by
        apply List.sum_nonneg
        intro x hx
        rcases List.mem_map.mp hx with ⟨o, hoin, rfl⟩
        exact (hobj o hoin).2.1
      have hsum1 : (((run_full_analysis_scores inputs).1).map ObjectiveScores.combined_score).sum ≤
          (inputs.length : ℚ) := by
        have hb : (((run_full_analysis_scores inputs).1).map ObjectiveScores.combined_score).sum ≤
            (((run_full_analysis_scores inputs).1).map ObjectiveScores.combined_score).length • (1 : ℚ) := by
          apply List.sum_le_card_nsmul
          intro x hx
          rcases List.mem_map.mp hx with ⟨o, hoin, rfl⟩
          exact (hobj o hoin).2.2
        rw [List.length_map, hlenobjs, nsmul_eq_mul, mul_one] at hb
        exact hb
      constructor
      · apply round3_nonneg
        positivity
      · apply round3_le_one
        rw [div_le_one hnq]
        exact hsum1
    · norm_num

/-- Claim C4 witness: the bounds applied to the progress-60 graph and to a
single-objective run with raw score 1 and ontology score 1. -/
theorem claim_c4_witness :
    0 ≤ (compute_ontology_alignment c3Graph "SO1").alignment_score ∧
    (compute_ontology_alignment c3Graph "SO1").alignment_score ≤ 1 ∧
    0 ≤ (run_full_analysis_scores [⟨["D1"], [], 1, 1⟩]).2.1 ∧
    (run_full_analysis_scores [⟨["D1"], [], 1, 1⟩]).2.1 ≤ 1 := by
  have h1 := claim_c4_score_bounds.1 c3Graph "SO1" (by decide) (by decide)
  have h2 := (claim_c4_score_bounds.2 [⟨["D1"], [], 1, 1⟩]
    (by intro i hi; simp at hi; subst hi; norm_num)).2
  exact ⟨h1.1, h1.2, h2.1, h2.2⟩

/-! Claim C5. -/

/-- The nested per-variant fold equals one fold over the flattened pairs. -/
theorem fuseVariants_eq_foldl (vs : List (List (String × ℚ))) :
    fuseVariants vs = vs.flatten.foldl insertDoc [] := by
  suffices h : ∀ acc : List FusedEntry,
      vs.foldl (fun acc v => v.foldl insertDoc acc) acc = vs.flatten.foldl insertDoc acc by
    exact h []
  induction vs with
  | nil => intro acc; rfl
  | cons v t ih =>
    intro acc
    simp only [List.foldl_cons, List.flatten_cons, List.foldl_append]
    exact ih _

theorem keyScoreSum_append (ps qs : List (String × ℚ)) (k : String) :
    keyScoreSum (ps ++ qs) k = keyScoreSum ps k + keyScoreSum qs k := by
  simp [keyScoreSum, List.filter_append]

theorem keyOccCount_append (ps qs : List (String × ℚ)) (k : String) :
    keyOccCount (ps ++ qs) k = keyOccCount ps k + keyOccCount qs k := by
  simp [keyOccCount, List.filter_append]

theorem keyScoreSum_singleton (d : String × ℚ) (k : String) :
    keyScoreSum [d] k = if docKey d = k then d.2 else 0 := by
  by_cases h : docKey d = k <;> simp [keyScoreSum, h]

theorem keyOccCount_singleton (d : String × ℚ) (k : String) :
    keyOccCount [d] k = if docKey d = k then 1 else 0 := by
  by_cases h : docKey d = k <;> simp [keyOccCount, h]

/-- Mapping the per-key update over the accumulator does not change which
keys occur in it. -/
theorem any_key_map_update (acc : List FusedEntry) (d : String × ℚ) (k : String) :
    ((acc.map (fun e =>
      if e.key = docKey d then { e with score := e.score + d.2, count := e.count + 1 }
      else e)).any (fun e => e.key = k)) = acc.any (fun e => e.key = k) := by
  induction acc with
  | nil => rfl
  | cons e t ih =>
    simp only [List.map_cons, List.any_cons, ih]
    by_cases h : e.key = docKey d <;> simp [h]

/-- Unfolding equation for insertDoc, used to rewrite a single application
without unfolding occurrences nested inside folds. -/
theorem insertDoc_eq (acc : List FusedEntry) (d : String × ℚ) :
    insertDoc acc d =
      if acc.any (fun e => e.key = docKey d) then
        acc.map (fun e =>
          if e.key = docKey d then
            { e with score := e.score + d.2, count := e.count + 1 }
          else e)
      else acc ++ [{ key := docKey d, text := d.1, score := d.2, count := 1 }] := rfl

/-- Fold invariant of the fusion dict: each entry's accumulated score is
the sum of the relevances of the processed pairs with its key, its count
is the number of such pairs, and every processed key has an entry. -/
theorem insertDoc_inv (ps : List (String × ℚ)) :
    (∀ e ∈ ps.foldl insertDoc [],
      e.score = keyScoreSum ps e.key ∧ e.count = keyOccCount ps e.key) ∧
    (∀ k, keyOccCount ps k ≠ 0 →
      (ps.foldl insertDoc []).any (fun e => e.key = k) = true) := by
  induction ps using List.reverseRecOn with
  | nil =>
    constructor
    · intro e he
      simp at he
    · intro k hk
      simp [keyOccCount] at hk
  | append_singleton ps d ih =>
    obtain ⟨ih1, ih2⟩ := ih
    have hstep : (ps ++ [d]).foldl insertDoc [] = insertDoc (ps.foldl insertDoc []) d := by
      rw [List.foldl_append]
      rfl
    constructor
    · intro e he
      rw [hstep] at he
      rw [insertDoc_eq] at he
      by_cases hany : (ps.foldl insertDoc []).any (fun e => e.key = docKey d) = true
      · rw [if_pos hany] at he
        rcases List.mem_map.mp he with ⟨e0, he0, rfl⟩
        obtain ⟨hs, hc⟩ := ih1 e0 he0
        by_cases hkey : e0.key = docKey d
        · rw [if_pos hkey]
          constructor
          · show e0.score + d.2 = keyScoreSum (ps ++ [d])
              ({ e0 with score := e0.score + d.2, count := e0.count + 1 }).key
            show e0.score + d.2 = keyScoreSum (ps ++ [d]) e0.key
            rw [keyScoreSum_append, keyScoreSum_singleton, if_pos hkey.symm, hs]
          · show e0.count + 1 = keyOccCount (ps ++ [d]) e0.key
            rw [keyOccCount_append, keyOccCount_singleton, if_pos hkey.symm, hc]
        · rw [if_neg hkey]
          constructor
          · rw [keyScoreSum_append, keyScoreSum_singleton,
              if_neg (fun hh => hkey hh.symm), add_zero, hs]
          · rw [keyOccCount_append, keyOccCount_singleton,
              if_neg (fun hh => hkey hh.symm), add_zero, hc]
      · rw [if_neg hany] at he
        simp only [List.any_eq_true, decide_eq_true_eq, not_exists] at hany
        push_neg at hany
        rcases List.mem_append.mp he with he0 | hnew
        · obtain ⟨hs, hc⟩ := ih1 e he0
          have hkey : e.key ≠ docKey d := hany e he0
          constructor
          · rw [keyScoreSum_append, keyScoreSum_singleton,
              if_neg (fun hh => hkey hh.symm), add_zero, hs]
          · rw [keyOccCount_append, keyOccCount_singleton,
              if_neg (fun hh => hkey hh.symm), add_zero, hc]
        · simp only [List.mem_singleton] at hnew
          subst hnew
          have hocc0 : keyOccCount ps (docKey d) = 0 := by
            by_contra hocc
            have := ih2 _ hocc
            simp only [List.any_eq_true, decide_eq_true_eq] at this
            rcases this with ⟨e0, he0, hk0⟩
            exact hany e0 he0 hk0
          have hsum0 : keyScoreSum ps (docKey d) = 0 := by
            unfold keyScoreSum
            unfold keyOccCount at hocc0
            rw [List.length_eq_zero] at hocc0
            rw [hocc0]
            rfl
          constructor
          · show d.2 = keyScoreSum (ps ++ [d]) (docKey d)
            rw [keyScoreSum_append, hsum0, keyScoreSum_singleton, if_pos rfl, zero_add]
          · show 1 = keyOccCount (ps ++ [d]) (docKey d)
            rw [keyOccCount_append, hocc0, keyOccCount_singleton, if_pos rfl, zero_add]
    · intro k hk
      rw [hstep]
      rw [insertDoc_eq]
      rw [keyOccCount_append, keyOccCount_singleton] at hk
      by_cases hany : (ps.foldl insertDoc []).any (fun e => e.key = docKey d) = true
      · rw [if_pos hany]
        rw [any_key_map_update]
        by_cases hocc : keyOccCount ps k ≠ 0
        · exact ih2 k hocc
        · push_neg at hocc
          rw [hocc, zero_add] at hk
          have hkd : docKey d = k := by
            by_contra hkd
            rw [if_neg hkd] at hk
            exact hk rfl
          rw [← hkd]
          exact hany
      · rw [if_neg hany]
        rw [List.any_append]
        by_cases hocc : keyOccCount ps k ≠ 0
        · rw [ih2 k hocc]
          rfl
        · push_neg at hocc
          rw [hocc, zero_add] at hk
          have hkd : docKey d = k := by
            by_contra hkd
            rw [if_neg hkd] at hk
            exact hk rfl
          simp [hkd]

/-- Per-key relevance over the flattened pairs equals the sum over the
variants of the per-variant relevance of that key. -/
theorem keyScoreSum_flatten (vs : List (List (String × ℚ))) (k : String) :
    keyScoreSum vs.flatten k = variantScoreSum vs k := by
  induction vs with
  | nil => simp [keyScoreSum, variantScoreSum]
  | cons v t ih =>
    simp only [List.flatten_cons, keyScoreSum_append, variantScoreSum, List.map_cons,
      List.sum_cons]
    rw [ih]
    rfl

theorem keyOccCount_flatten (vs : List (List (String × ℚ))) (k : String) :
    keyOccCount vs.flatten k = (vs.map (fun v => keyOccCount v k)).sum := by
  induction vs with
  | nil => simp [keyOccCount]
  | cons v t ih =>
    simp only [List.flatten_cons, keyOccCount_append, List.map_cons, List.sum_cons, ih]

/-- Within one variant with pairwise distinct keys, a key occurs at most
once. -/
theorem keyOccCount_le_one (v : List (String × ℚ)) (k : String)
    (h : (v.map docKey).Nodup) : keyOccCount v k ≤ 1 := by
  induction v with
  | nil => simp [keyOccCount]
  | cons d t ih =>
    simp only [List.map_cons, List.nodup_cons] at h
    obtain ⟨hnot, htail⟩ := h
    unfold keyOccCount at ih ⊢
    rw [List.filter_cons]
    by_cases hd : docKey d = k
    · have hzero : (t.filter (fun x => decide (docKey x = k))).length = 0 := by
        rw [List.length_eq_zero]
        by_contra hne
        rcases List.exists_mem_of_ne_nil _ hne with ⟨x, hx⟩
        have hx2 := List.mem_filter.mp hx
        have : docKey x = k := by simpa using hx2.2
        exact hnot (by
          rw [hd]
          rw [← this]
          exact List.mem_map_of_mem docKey (hx2.1))
      simp only [hd]
      simp [hzero]
    · simp only [hd]
      simpa using ih htail

/-- A variant retrieved a key exactly when that key occurs in it. -/
theorem any_key_iff_occ (v : List (String × ℚ)) (k : String) :
    v.any (fun d => docKey d = k) = true ↔ keyOccCount v k ≠ 0 := by
  unfold keyOccCount
  constructor
  · intro h
    rcases List.any_eq_true.mp h with ⟨d, hd, hk⟩
    simp only [decide_eq_true_eq] at hk
    intro hlen
    rw [List.length_eq_zero] at hlen
    have : d ∈ v.filter (fun x => decide (docKey x = k)) := by
      rw [List.mem_filter]
      exact ⟨hd, by simpa using hk⟩
    rw [hlen] at this
    simp at this
  · intro h
    rw [List.any_eq_true]
    have hne : v.filter (fun x => decide (docKey x = k)) ≠ [] := by
      intro hnil
      exact h (by rw [hnil]; rfl)
    rcases List.exists_mem_of_ne_nil _ hne with ⟨d, hd⟩
    have hd2 := List.mem_filter.mp hd
    exact ⟨d, hd2.1, hd2.2⟩

/-- With per-variant distinct keys, the total occurrence count of a key is
the number of variants that retrieved it. -/
theorem sum_occ_eq_hitCount (vs : List (List (String × ℚ))) (k : String)
    (h : ∀ v ∈ vs, (v.map docKey).Nodup) :
    (vs.map (fun v => keyOccCount v k)).sum = variantHitCount vs k := by
  induction vs with
  | nil => rfl
  | cons v t ih =>
    simp only [List.map_cons, List.sum_cons, variantHitCount, List.countP_cons]
    have hrec : (t.map (fun v => keyOccCount v k)).sum = variantHitCount t k :=
      ih (fun x hx => h x (List.mem_cons_of_mem _ hx))
    rw [hrec]
    unfold variantHitCount
    by_cases hv : v.any (fun d => docKey d = k) = true
    · have hocc : keyOccCount v k ≠ 0 := (any_key_iff_occ v k).mp hv
      have hle : keyOccCount v k ≤ 1 := keyOccCount_le_one v k (h v (List.mem_cons_self _ _))
      have h1 : keyOccCount v k = 1 := by omega
      simp only [hv, if_pos]
      omega
    · have hocc : keyOccCount v k = 0 := by
        by_contra hne
        exact hv ((any_key_iff_occ v k).mpr hne)
      simp only [Bool.not_eq_true] at hv
      simp [hv, hocc]

/-- Claim C5: fusion accumulates, per chunk key, the relevance sum over the
variants that retrieved it; the final score is the accumulated score times
1 + 0.1 (retrieval count - 1); the returned list is the first top_k of a
descending arrangement of the boosted entries; and the concrete two-of-four
1.2-sum chunk is boosted to 1.32 and strictly outranks an equally relevant
single-hit chunk. -/
theorem claim_c5_retrieval_fusion :
    (∀ (vs : List (List (String × ℚ))) (topK : ℕ),
      (∀ v ∈ vs, (v.map docKey).Nodup) →
      ((∀ e ∈ fuseVariants vs,
          e.score = variantScoreSum vs e.key ∧ e.count = variantHitCount vs e.key) ∧
       (∀ e ∈ retrieve_chunks_fusion vs topK,
          e.score = variantScoreSum vs e.key *
            (1 + 0.1 * ((variantHitCount vs e.key : ℚ) - 1))) ∧
       (∃ l, ((fuseVariants vs).map boostEntry).Perm l ∧
          l.Sorted scoreDescRel ∧ retrieve_chunks_fusion vs topK = l.take topK))) ∧
    retrieve_chunks_fusion c5Variants 5 =
      [{ key := "chunk X text", text := "chunk X text", score := 33 / 25, count := 2 },
       { key := "chunk Y text", text := "chunk Y text", score := 6 / 5, count := 1 }] ∧
    (6 / 5 : ℚ) < 33 / 25 := by
  have hgen : ∀ (vs : List (List (String × ℚ))) (topK : ℕ),
      (∀ v ∈ vs, (v.map docKey).Nodup) →
      ((∀ e ∈ fuseVariants vs,
          e.score = variantScoreSum vs e.key ∧ e.count = variantHitCount vs e.key) ∧
       (∀ e ∈ retrieve_chunks_fusion vs topK,
          e.score = variantScoreSum vs e.key *
            (1 + 0.1 * ((variantHitCount vs e.key : ℚ) - 1))) ∧
       (∃ l, ((fuseVariants vs).map boostEntry).Perm l ∧
          l.Sorted scoreDescRel ∧ retrieve_chunks_fusion vs topK = l.take topK)) := by
    intro vs topK hnodup
    have hpart1 : ∀ e ∈ fuseVariants vs,
        e.score = variantScoreSum vs e.key ∧ e.count = variantHitCount vs e.key := by
      intro e he
      rw [fuseVariants_eq_foldl] at he
      obtain ⟨hs, hc⟩ := (insertDoc_inv vs.flatten).1 e he
      constructor
      · rw [hs, keyScoreSum_flatten]
      · rw [hc, keyOccCount_flatten, sum_occ_eq_hitCount vs e.key hnodup]
    refine ⟨hpart1, ?_, ?_⟩
    · intro e he
      have he2 : e ∈ sortByScoreDesc ((sortByScoreDesc (fuseVariants vs)).map boostEntry) :=
        List.mem_of_mem_take he
      have he3 : e ∈ (sortByScoreDesc (fuseVariants vs)).map boostEntry :=
        ((List.perm_insertionSort _ _).mem_iff).mp he2
      rcases List.mem_map.mp he3 with ⟨e0, he0, rfl⟩
      have he4 : e0 ∈ fuseVariants vs := ((List.perm_insertionSort _ _).mem_iff).mp he0
      obtain ⟨hs, hc⟩ := hpart1 e0 he4
      show e0.score * (1 + 0.1 * ((e0.count : ℚ) - 1)) = _
      rw [hs, hc]
      rfl
    · refine ⟨sortByScoreDesc ((sortByScoreDesc (fuseVariants vs)).map boostEntry),
        ?_, ?_, rfl⟩
      · have p1 : (sortByScoreDesc (fuseVariants vs)).Perm (fuseVariants vs) :=
          List.perm_insertionSort _ _
        have p2 : ((sortByScoreDesc (fuseVariants vs)).map boostEntry).Perm
            ((fuseVariants vs).map boostEntry) := p1.map _
        have p3 : (sortByScoreDesc ((sortByScoreDesc (fuseVariants vs)).map
            boostEntry)).Perm ((sortByScoreDesc (fuseVariants vs)).map boostEntry) :=
          List.perm_insertionSort _ _
        exact (p3.trans p2).symm
      · exact List.sorted_insertionSort _ _
  have hkX1 : docKey ("chunk X text", (0.7 : ℚ)) = "chunk X text" := by decide
  have hkX2 : docKey ("chunk X text", (0.5 : ℚ)) = "chunk X text" := by decide
  have hkY : docKey ("chunk Y text", (1.2 : ℚ)) = "chunk Y text" := by decide
  have e1 : insertDoc [] ("chunk X text", (0.7 : ℚ)) =
      [{ key := "chunk X text", text := "chunk X text", score := 0.7, count := 1 }] := by
    rw [insertDoc_eq, hkX1]
    norm_num
  have e2 : insertDoc
      [{ key := "chunk X text", text := "chunk X text", score := (0.7 : ℚ), count := 1 }]
      ("chunk X text", (0.5 : ℚ)) =
      [{ key := "chunk X text", text := "chunk X text", score := 6 / 5, count := 2 }] := by
    rw [insertDoc_eq, hkX2]
    norm_num
  have e3 : insertDoc
      [{ key := "chunk X text", text := "chunk X text", score := (6 / 5 : ℚ), count := 2 }]
      ("chunk Y text", (1.2 : ℚ)) =
      [{ key := "chunk X text", text := "chunk X text", score := 6 / 5, count := 2 },
       { key := "chunk Y text", text := "chunk Y text", score := 6 / 5, count := 1 }] := by
    rw [insertDoc_eq, hkY]
    norm_num
    decide
  have hfuse : fuseVariants c5Variants =
      [{ key := "chunk X text", text := "chunk X text", score := 6 / 5, count := 2 },
       { key := "chunk Y text", text := "chunk Y text", score := 6 / 5, count := 1 }] := by
    show c5Variants.foldl (fun acc v => v.foldl insertDoc acc) [] = _
    simp only [c5Variants, List.foldl_cons, List.foldl_nil]
    rw [e1, e2, e3]
  have hsort1 : sortByScoreDesc
      [{ key := "chunk X text", text := "chunk X text", score := (6 / 5 : ℚ), count := 2 },
       { key := "chunk Y text", text := "chunk Y text", score := 6 / 5, count := 1 }] =
      [{ key := "chunk X text", text := "chunk X text", score := 6 / 5, count := 2 },
       { key := "chunk Y text", text := "chunk Y text", score := 6 / 5, count := 1 }] := by
    unfold sortByScoreDesc
    norm_num [List.insertionSort, List.orderedInsert, scoreDescRel]
  have hboost : List.map boostEntry
      [{ key := "chunk X text", text := "chunk X text", score := (6 / 5 : ℚ), count := 2 },
       { key := "chunk Y text", text := "chunk Y text", score := 6 / 5, count := 1 }] =
      [{ key := "chunk X text", text := "chunk X text", score := 33 / 25, count := 2 },
       { key := "chunk Y text", text := "chunk Y text", score := 6 / 5, count := 1 }] := by
    norm_num [boostEntry]
  have hsort2 : sortByScoreDesc
      [{ key := "chunk X text", text := "chunk X text", score := (33 / 25 : ℚ), count := 2 },
       { key := "chunk Y text", text := "chunk Y text", score := 6 / 5, count := 1 }] =
      [{ key := "chunk X text", text := "chunk X text", score := 33 / 25, count := 2 },
       { key := "chunk Y text", text := "chunk Y text", score := 6 / 5, count := 1 }] := by
    unfold sortByScoreDesc
    norm_num [List.insertionSort, List.orderedInsert, scoreDescRel]
  refine ⟨hgen, ?_, by norm_num⟩
  have hret : retrieve_chunks_fusion c5Variants 5 =
      (sortByScoreDesc ((sortByScoreDesc (fuseVariants c5Variants)).map boostEntry)).take 5 :=
    rfl
  rw [hret, hfuse, hsort1, hboost, hsort2]
  rfl

/-- Claim C5 witness: the per-key accumulation clause applied to the
concrete variant results. -/
theorem claim_c5_witness :
    (∀ v ∈ c5Variants, (v.map docKey).Nodup) ∧
    (∀ e ∈ fuseVariants c5Variants,
      e.score = variantScoreSum c5Variants e.key ∧
      e.count = variantHitCount c5Variants e.key) :=
  ⟨by decide, (claim_c5_retrieval_fusion.1 c5Variants 5 (by decide)).1⟩
